import Mathlib

/-!
Shallow embedding of the socket-io repository (gangb-tech/socket-io),
covering `SidGenerator` (src/socketio/src/server/server.rs), the server's
rooms/clients bookkeeping (`Server::drop_client`, `Server::insert_clients`,
`Server::handle_connect`, `Server::sids_to_emit`, `Server::emit_to`), the
client reconnect loop and `Client::disconnect`
(src/socketio/src/client/client.rs), and the polling transport
(src/engineio/src/transports/polling.rs).

Byte strings are modelled as `List Nat` (each element a byte value < 256);
Rust `String` values are represented by their UTF-8 byte sequences.
-/

namespace SocketIOProof

/-- Association-list lookup with string keys, modelling `HashMap::get`. -/
def alookup {α : Type} : List (String × α) → String → Option α
  | [], _ => none
  | (k, v) :: rest, key => if k = key then some v else alookup rest key

/-! ### base64 (the `base64` crate's STANDARD alphabet with `=` padding)

`SidGenerator::generate` calls `base64::encode` and `SidGenerator::decode`
calls `base64::decode`; both operate on byte sequences. -/

/-- The base64 STANDARD alphabet: maps a 6-bit value to its ASCII byte. -/
def b64char (v : Nat) : Nat :=
  if v < 26 then 65 + v
  else if v < 52 then 97 + (v - 26)
  else if v < 62 then 48 + (v - 52)
  else if v = 62 then 43
  else 47

/-- Inverse alphabet: ASCII byte back to its 6-bit value, `none` for bytes
outside the base64 alphabet (`=` padding handled separately). -/
def b64val (b : Nat) : Option Nat :=
  if 65 ≤ b ∧ b ≤ 90 then some (b - 65)
  else if 97 ≤ b ∧ b ≤ 122 then some (26 + (b - 97))
  else if 48 ≤ b ∧ b ≤ 57 then some (52 + (b - 48))
  else if b = 43 then some 62
  else if b = 47 then some 63
  else none

/-- Model of `base64::encode`: bytes to ASCII bytes of the padded base64 text. -/
def b64encode : List Nat → List Nat
  | [] => []
  | [a] => [b64char (a / 4), b64char (a % 4 * 16), 61, 61]
  | [a, b] => [b64char (a / 4), b64char (a % 4 * 16 + b / 16), b64char (b % 16 * 4), 61]
  | a :: b :: c :: rest =>
      b64char (a / 4) :: b64char (a % 4 * 16 + b / 16) ::
        b64char (b % 16 * 4 + c / 64) :: b64char (c % 64) :: b64encode rest

/-- Model of `base64::decode` (STANDARD config): consumes four ASCII bytes at a time,
accepts `=` padding only at the very end, rejects non-alphabet bytes,
lengths not divisible by four, and non-zero trailing bits.  `none` models
the `Err` that `SidGenerator::decode` unwraps. -/
def b64decode : List Nat → Option (List Nat)
  | [] => some []
  | c0 :: c1 :: c2 :: c3 :: rest =>
    match b64val c0, b64val c1 with
    | some v0, some v1 =>
      if c2 = 61 then
        if c3 = 61 ∧ rest = [] ∧ v1 % 16 = 0 then some [v0 * 4 + v1 / 16] else none
      else
        match b64val c2 with
        | some v2 =>
          if c3 = 61 then
            if rest = [] ∧ v2 % 4 = 0 then
              some [v0 * 4 + v1 / 16, v1 % 16 * 16 + v2 / 4]
            else none
          else
            match b64val c3 with
            | some v3 =>
              match b64decode rest with
              | some tail =>
                  some ((v0 * 4 + v1 / 16) :: (v1 % 16 * 16 + v2 / 4) ::
                    (v2 % 4 * 64 + v3) :: tail)
              | none => none
            | none => none
        | none => none
    | _, _ => none
  | _ => none

/-! ### UTF-8 validity

`SidGenerator::decode` calls `std::str::from_utf8(..).unwrap()`; the unwrap
succeeds exactly on valid UTF-8 byte sequences (RFC 3629 table). -/

/-- Streaming UTF-8 validation (RFC 3629): `exp` is the list of inclusive
byte ranges the next bytes must land in to finish the current scalar
value; `exp = []` means the validator is at a scalar boundary.  A lead
byte pushes the ranges its continuation bytes must satisfy. -/
def validUtf8From : List (Nat × Nat) → List Nat → Bool
  | [], [] => true
  | [], b :: rest =>
    if b < 128 then validUtf8From [] rest
    else if b < 194 then false
    else if b < 224 then validUtf8From [(128, 191)] rest
    else if b = 224 then validUtf8From [(160, 191), (128, 191)] rest
    else if b < 237 then validUtf8From [(128, 191), (128, 191)] rest
    else if b = 237 then validUtf8From [(128, 159), (128, 191)] rest
    else if b < 240 then validUtf8From [(128, 191), (128, 191)] rest
    else if b = 240 then validUtf8From [(144, 191), (128, 191), (128, 191)] rest
    else if b < 244 then validUtf8From [(128, 191), (128, 191), (128, 191)] rest
    else if b = 244 then validUtf8From [(128, 143), (128, 191), (128, 191)] rest
    else false
  | _ :: _, [] => false
  | (lo, hi) :: exp, b :: rest =>
    if lo ≤ b ∧ b ≤ hi then validUtf8From exp rest else false

/-- Byte-level UTF-8 validity, mirroring `std::str::from_utf8` success. -/
def validUtf8 (l : List Nat) : Bool := validUtf8From [] l

/-! ### Decimal formatting

`format!("{}-{}", engine_sid, seq)` renders `seq : usize` in decimal;
`natToDigits` produces the ASCII bytes of that rendering. -/

/-- Accumulator loop for decimal rendering (least significant digit first
into the accumulator).  The first argument is recursion fuel, a Lean
artifact making the recursion structural; `n + 1` fuel always suffices
since `n / 10 < n` for `n ≥ 10`. -/
def natToDigitsCore : Nat → Nat → List Nat → List Nat
  | 0, _, acc => acc
  | fuel + 1, n, acc =>
    if n < 10 then (48 + n) :: acc
    else natToDigitsCore fuel (n / 10) ((48 + n % 10) :: acc)

/-- ASCII bytes of the decimal rendering of `n` (no leading zeros). -/
def natToDigits (n : Nat) : List Nat := natToDigitsCore (n + 1) n []

/-! ### `SidGenerator` (src/socketio/src/server/server.rs lines 300-313)

`generate` takes the engine sid (a Rust `String`, here its UTF-8 bytes) and
the fetched value of the atomic counter `seq`, and returns
`base64::encode(format!("{}-{}", engine_sid, seq))` as bytes.
`decode` base64-decodes, interprets as UTF-8, splits on `'-'` and takes
`tokens[0]`; the two `unwrap`s are modelled by `Option`. -/

/-- Model of `SidGenerator::generate` with the counter value `seq` made explicit. -/
def generate (esid : List Nat) (seq : Nat) : List Nat :=
  b64encode (esid ++ 45 :: natToDigits seq)

/-- Model of `SidGenerator::decode`; `none` models a panic of either `unwrap`.
`tokens[0]` of `split('-')` is the byte prefix before the first `0x2D`. -/
def decodeSid (sid : List Nat) : Option (List Nat) :=
  match b64decode sid with
  | none => none
  | some bs => if validUtf8 bs then some (bs.takeWhile (fun b => b != 45)) else none

/-! ### Server state, `drop_client` (server.rs lines 276-292)

`clients : HashMap<Sid, HashMap<NameSpace, ServerSocket>>` is modelled by
an association list from sid byte strings to the list of namespace keys
(the `ServerSocket` values play no role in the claims);
`rooms : HashMap<NameSpace, HashMap<Room, HashSet<Sid>>>` by nested
association lists with sid lists as the sets. -/

structure ServerState where
  clients : List (List Nat × List String)
  rooms : List (String × List (String × List (List Nat)))
deriving DecidableEq

/-- Model of `Server::drop_client`: `clients.remove(esid)` removes the entry whose
key (an `Arc<String>`, compared as a string) equals the raw engine sid;
then every room set retains only the sids with
`SidGenerator::decode(sid) != esid`. -/
def dropClient (st : ServerState) (esid : List Nat) : ServerState :=
  { clients := st.clients.filter (fun kv => !(kv.1 == esid)),
    rooms := st.rooms.map (fun nr =>
      (nr.1, nr.2.map (fun rs =>
        (rs.1, rs.2.filter (fun sid => !(decodeSid sid == some esid)))))) }

/-! ### `handle_connect` / `insert_clients` (server.rs lines 230-274) -/

/-- Observable server-side actions during connection handling. -/
inductive SAction
  | handshake (nsp : String) (sid : List Nat)
  | connectError (nsp : String)
  | close
deriving DecidableEq

/-- The packet types `handle_connect` distinguishes: the loop only tests
`packet.ptype == PacketType::Connect`. -/
inductive PacketTypeM
  | connect
  | other
deriving DecidableEq

/-- Model of `Server::insert_clients`: when `self.on` has an event-table for `nsp`,
a socket is built, the connect callback runs, a CONNECT handshake carrying
the sid is sent back (when `handshake` is true) and the client is inserted
into `clients`; when `nsp` has no event-table the `if let` has no else
branch: nothing is sent, nothing is closed, nothing is inserted. -/
def insertClients (onTables : List String) (clients : List (List Nat × List String))
    (nsp : String) (sid : List Nat) (handshake : Bool) :
    List (List Nat × List String) × List SAction :=
  if onTables.contains nsp then
    ((sid, [nsp]) :: clients.filter (fun kv => !(kv.1 == sid)),
      if handshake then [SAction.handshake nsp sid] else [])
  else (clients, [])

/-- Model of `Server::handle_connect`: poll packets until the first CONNECT, then
`insert_clients` with its namespace and `handshake = true`; if the stream
ends without a CONNECT the loop just ends. -/
def handleConnect (onTables : List String) (clients : List (List Nat × List String))
    (packets : List (PacketTypeM × String)) (sid : List Nat) :
    List (List Nat × List String) × List SAction :=
  match packets.find? (fun p => p.1 == PacketTypeM.connect) with
  | some p => insertClients onTables clients p.2 sid true
  | none => (clients, [])

/-! ### Client reconnect loop (src/socketio/src/client/client.rs 184-206)

The Rust loop (with `builder.reconnect = true` and
`max_reconnect_attempts = Some maxAttempts`) keeps a counter starting at 0:
each iteration breaks if `attempts > maxAttempts`, otherwise increments the
counter, sleeps the backoff and tries `do_reconnect`; a successful attempt
breaks.  `succeeds k` is the outcome of the k-th `do_reconnect` call.  The
loop is rendered as a countdown on `remaining = maxAttempts + 1 - attempts`
(the number of further iterations the guard still allows), which makes the
recursion structural; `reconnect` returns `()` in Rust — no error value
exists on either exit path. -/

inductive ReconnectOutcome
  | reconnected (attempts : Nat)
  | gaveUp (attempts : Nat)
deriving DecidableEq

/-- One loop iteration; `attempts` is the value of `reconnect_attempts`
entering the iteration, `remaining = maxAttempts + 1 - attempts`. -/
def reconnectGo (succeeds : Nat → Bool) : Nat → Nat → ReconnectOutcome
  | 0, attempts => .gaveUp attempts
  | r + 1, attempts =>
    if succeeds (attempts + 1) then .reconnected (attempts + 1)
    else reconnectGo succeeds r (attempts + 1)

/-- Model of `Client::reconnect` with `max_reconnect_attempts = Some maxAttempts`. -/
def reconnect (maxAttempts : Nat) (succeeds : Nat → Bool) : ReconnectOutcome :=
  reconnectGo succeeds (maxAttempts + 1) 0

/-! ### Polling transport URL (src/engineio/src/transports/polling.rs 37-52)

`ClientPolling::new` appends the pair `("transport", "polling")` to the
URL's query pairs unless some existing pair has key `"transport"` OR value
`"polling"` (the `||` in the source). -/

/-- The query-pair transformation performed by `ClientPolling::new`. -/
def addPollingTransport (pairs : List (String × String)) : List (String × String) :=
  if pairs.any (fun p => p.1 == "transport" || p.2 == "polling") then pairs
  else pairs ++ [("transport", "polling")]

/-- Whether the query contains the parameter `transport=polling`. -/
def hasTransportPolling (pairs : List (String × String)) : Bool :=
  pairs.any (fun p => p.1 == "transport" && p.2 == "polling")

/-- Rendering of a URL from its base (scheme://host/path) and query pairs,
as `Url::to_string` does. -/
def renderUrl (base : String) (pairs : List (String × String)) : String :=
  match pairs with
  | [] => base
  | _ => base ++ "?" ++ String.intercalate "&" (pairs.map (fun p => p.1 ++ "=" ++ p.2))

/-! ### `sids_to_emit` / `emit_to` (server.rs lines 39-63 and 109-128) -/

/-- Model of `HashSet::insert` on a set represented as a duplicate-free list. -/
def insertSet (acc : List String) (x : String) : List String :=
  if x ∈ acc then acc else acc ++ [x]

/-- The loop body of `sids_to_emit` over the listed room names, threading
the accumulated `HashSet`: a known room contributes all its sids, an
unknown name is inserted itself (`// room may be sid`). -/
def sidsToEmitAux (roomClients : List (String × List String)) :
    List String → List String → List String
  | [], acc => acc
  | name :: rest, acc =>
    match alookup roomClients name with
    | some roomSids => sidsToEmitAux roomClients rest (roomSids.foldl insertSet acc)
    | none => sidsToEmitAux roomClients rest (insertSet acc name)

/-- Model of `Server::sids_to_emit`: when the namespace has no entry in `rooms` the
result is the empty set — the per-name loop is never entered. -/
def sidsToEmit (rooms : List (String × List (String × List String)))
    (nsp : String) (roomNames : List String) : List String :=
  match alookup rooms nsp with
  | none => []
  | some rc => sidsToEmitAux rc roomNames []

/-- Model of `Server::client`: whether `clients[sid][nsp]` exists. -/
def clientExists (clients : List (String × List String)) (sid nsp : String) : Bool :=
  match alookup clients sid with
  | some nsps => nsps.contains nsp
  | none => false

/-- The recipients `Server::emit_to` schedules an emit for: each sid of
`sids_to_emit` whose socket exists in `clients[sid][nsp]` (one spawned
emit per such sid). -/
def emitRecipients (clients : List (String × List String))
    (rooms : List (String × List (String × List String)))
    (nsp : String) (roomNames : List String) : List String :=
  (sidsToEmit rooms nsp roomNames).filter (fun sid => clientExists clients sid nsp)

/-- Whether `sid` is contributed by some listed name under `sids_to_emit`'s
rules (member of a listed known room, or equal to a listed unknown name). -/
def contributes (rc : List (String × List String)) (names : List String)
    (sid : String) : Bool :=
  names.any (fun name =>
    match alookup rc name with
    | some roomSids => roomSids.contains sid
    | none => name == sid)

/-- Whether `sid` lies in the union of the sid sets of the listed rooms. -/
def sidInUnion (rc : List (String × List String)) (names : List String)
    (sid : String) : Bool :=
  names.any (fun name =>
    match alookup rc name with
    | some roomSids => roomSids.contains sid
    | none => false)

/-! ### Polling transport `emit` (polling.rs lines 62-86) -/

/-- Engine.IO payload handed to `Transport::emit`. -/
inductive TPayload
  | str (data : List Nat)
  | binary (data : List Nat)
deriving DecidableEq

/-- Errors `ClientPolling::emit` can return: a non-200 status, or a
transport-level failure of the POST itself (the `?` on `send()`). -/
inductive TransportError
  | invalidHttpResponseStatus (code : Nat)
  | httpError
deriving DecidableEq

/-- The POST body: the string bytes verbatim, or `b'b'` followed by the
base64 text for binary payloads. -/
def emitBody : TPayload → List Nat
  | .str d => d
  | .binary d => 98 :: b64encode d

/-- Model of `<ClientPolling as Transport>::emit`: POST the body; `respond` gives
the HTTP status for the posted body (`none` = the request itself failed);
status 200 is `Ok(())`, anything else is `InvalidHttpResponseStatus`. -/
def pollingEmit (payload : TPayload) (respond : List Nat → Option Nat) :
    Except TransportError Unit :=
  match respond (emitBody payload) with
  | none => .error .httpError
  | some status =>
      if status = 200 then .ok () else .error (.invalidHttpResponseStatus status)

/-! ### `Client::disconnect` (client.rs lines 150-163) -/

/-- The client's `connected` flag. -/
structure ClientConn where
  connected : Bool
deriving DecidableEq

/-- The observable effect of a `disconnect` call on the underlying socket. -/
inductive CAction
  | sendDisconnectAndClose
deriving DecidableEq

/-- Model of `Client::disconnect`: under the `connected` write lock, an already
disconnected client returns `Ok(())` at once; otherwise the flag is
cleared and `disconnect_socket` performs the teardown (its result
`socketOk` is returned).  Result: (new state, socket actions, `is_ok`). -/
def clientDisconnect (socketOk : Bool) (st : ClientConn) :
    ClientConn × List CAction × Bool :=
  if !st.connected then (st, [], true)
  else (⟨false⟩, [CAction.sendDisconnectAndClose], socketOk)

/-! ### Helper lemmas: base64 round trip -/

theorem b64val_b64char : ∀ v : Nat, v < 64 → b64val (b64char v) = some v := by decide

theorem b64char_ne_pad : ∀ v : Nat, v < 64 → b64char v ≠ 61 := by decide

theorem b64decode_encode : ∀ bs : List Nat, (∀ b ∈ bs, b < 256) →
    b64decode (b64encode bs) = some bs
  | [], _ => rfl
  | [a], h => by
    have ha : a < 256 := h a (by simp)
    have h0 := b64val_b64char (a / 4) (by omega)
    have h1 := b64val_b64char (a % 4 * 16) (by omega)
    simp only [b64encode, b64decode, h0, h1]
    have hz : a % 4 * 16 % 16 = 0 := by omega
    simp [hz]
    omega
  | [a, b], h => by
    have ha : a < 256 := h a (by simp)
    have hb : b < 256 := h b (by simp)
    have h0 := b64val_b64char (a / 4) (by omega)
    have h1 := b64val_b64char (a % 4 * 16 + b / 16) (by omega)
    have h2 := b64val_b64char (b % 16 * 4) (by omega)
    have hne := b64char_ne_pad (b % 16 * 4) (by omega)
    simp only [b64encode, b64decode, h0, h1, h2, if_neg hne]
    have hz : b % 16 * 4 % 4 = 0 := by omega
    simp [hz]
    omega
  | a :: b :: c :: rest, h => by
    have ha : a < 256 := h a (by simp)
    have hb : b < 256 := h b (by simp)
    have hc : c < 256 := h c (by simp)
    have ih := b64decode_encode rest (fun x hx => h x (by simp [hx]))
    have h0 := b64val_b64char (a / 4) (by omega)
    have h1 := b64val_b64char (a % 4 * 16 + b / 16) (by omega)
    have h2 := b64val_b64char (b % 16 * 4 + c / 64) (by omega)
    have h3 := b64val_b64char (c % 64) (by omega)
    have hne2 := b64char_ne_pad (b % 16 * 4 + c / 64) (by omega)
    have hne3 := b64char_ne_pad (c % 64) (by omega)
    simp only [b64encode, b64decode, h0, h1, h2, h3, if_neg hne2, if_neg hne3, ih,
      Option.some.injEq, List.cons.injEq]
    refine ⟨by omega, by omega, by omega, trivial⟩

/-! ### Helper lemmas: UTF-8 validity -/

theorem validUtf8From_nil_cons (b : Nat) (rest : List Nat) :
    validUtf8From [] (b :: rest) =
      (if b < 128 then validUtf8From [] rest
       else if b < 194 then false
       else if b < 224 then validUtf8From [(128, 191)] rest
       else if b = 224 then validUtf8From [(160, 191), (128, 191)] rest
       else if b < 237 then validUtf8From [(128, 191), (128, 191)] rest
       else if b = 237 then validUtf8From [(128, 159), (128, 191)] rest
       else if b < 240 then validUtf8From [(128, 191), (128, 191)] rest
       else if b = 240 then validUtf8From [(144, 191), (128, 191), (128, 191)] rest
       else if b < 244 then validUtf8From [(128, 191), (128, 191), (128, 191)] rest
       else if b = 244 then validUtf8From [(128, 143), (128, 191), (128, 191)] rest
       else false) := rfl

theorem validUtf8From_cons_nil (e : Nat × Nat) (exp : List (Nat × Nat)) :
    validUtf8From (e :: exp) [] = false := rfl

theorem validUtf8From_cons_cons (lo hi b : Nat) (exp : List (Nat × Nat)) (rest : List Nat) :
    validUtf8From ((lo, hi) :: exp) (b :: rest) =
      (if lo ≤ b ∧ b ≤ hi then validUtf8From exp rest else false) := rfl

theorem validUtf8From_ascii : ∀ xs : List Nat, (∀ b ∈ xs, b < 128) →
    validUtf8From [] xs = true
  | [], _ => rfl
  | b :: rest, h => by
    have hb : b < 128 := h b (by simp)
    have ih := validUtf8From_ascii rest (fun x hx => h x (by simp [hx]))
    rw [validUtf8From_nil_cons, if_pos hb]
    exact ih

set_option maxHeartbeats 1600000 in
theorem validUtf8From_append : ∀ (xs : List Nat) (exp : List (Nat × Nat)) (ys : List Nat),
    validUtf8From exp xs = true → validUtf8From [] ys = true →
    validUtf8From exp (xs ++ ys) = true
  | [], exp, ys, hx, hy => by
    match exp with
    | [] => exact hy
    | e :: exp' => rw [validUtf8From_cons_nil] at hx; exact absurd hx (by simp)
  | b :: rest, exp, ys, hx, hy => by
    match exp with
    | [] =>
      show validUtf8From [] (b :: (rest ++ ys)) = true
      rw [validUtf8From_nil_cons] at hx ⊢
      split_ifs at hx ⊢ <;>
        first
        | exact hx
        | exact validUtf8From_append rest _ ys hx hy
    | (lo, hi) :: exp' =>
      show validUtf8From ((lo, hi) :: exp') (b :: (rest ++ ys)) = true
      rw [validUtf8From_cons_cons] at hx ⊢
      split_ifs at hx ⊢ <;>
        first
        | exact hx
        | exact validUtf8From_append rest _ ys hx hy

theorem validUtf8_append (xs ys : List Nat) (hx : validUtf8 xs = true)
    (hy : validUtf8 ys = true) : validUtf8 (xs ++ ys) = true :=
  validUtf8From_append xs [] ys hx hy

theorem validUtf8_ascii (xs : List Nat) (h : ∀ b ∈ xs, b < 128) : validUtf8 xs = true :=
  validUtf8From_ascii xs h

/-! ### Helper lemmas: decimal digits and the sid round trip -/

theorem natToDigitsCore_mem : ∀ (fuel n : Nat) (acc : List Nat),
    (∀ b ∈ acc, 48 ≤ b ∧ b ≤ 57) → ∀ b ∈ natToDigitsCore fuel n acc, 48 ≤ b ∧ b ≤ 57
  | 0, _, _, hacc => hacc
  | fuel + 1, n, acc, hacc => by
    rw [natToDigitsCore]
    split
    · intro b hb
      rcases List.mem_cons.mp hb with h | h
      · subst h; omega
      · exact hacc b h
    · refine natToDigitsCore_mem fuel (n / 10) _ ?_
      intro b hb
      rcases List.mem_cons.mp hb with h | h
      · subst h; omega
      · exact hacc b h

theorem natToDigits_mem (n : Nat) : ∀ b ∈ natToDigits n, 48 ≤ b ∧ b ≤ 57 :=
  natToDigitsCore_mem (n + 1) n [] (by simp)

theorem takeWhile_append_dash : ∀ (l t : List Nat), 45 ∉ l →
    (l ++ 45 :: t).takeWhile (fun b => b != 45) = l
  | [], t, _ => by simp
  | a :: rest, t, h => by
    have ha : a ≠ 45 := fun e => h (by simp [e])
    have hrest : 45 ∉ rest := fun hx => h (by simp [hx])
    simp only [List.cons_append, List.takeWhile_cons]
    simp only [bne_iff_ne, ne_eq, ha, not_false_eq_true, if_pos,
      takeWhile_append_dash rest t hrest]

/-- The decoded byte string of a generated sid: the format bytes
`esid ++ "-" ++ digits`. -/
theorem b64decode_generate (esid : List Nat) (seq : Nat)
    (h256 : ∀ b ∈ esid, b < 256) :
    b64decode (generate esid seq) = some (esid ++ 45 :: natToDigits seq) := by
  refine b64decode_encode _ ?_
  intro b hb
  rcases List.mem_append.mp hb with h | h
  · exact h256 b h
  · rcases List.mem_cons.mp h with h | h
    · omega
    · have := natToDigits_mem seq b h
      omega

theorem validUtf8_generateBytes (esid : List Nat) (seq : Nat)
    (hutf : validUtf8 esid = true) :
    validUtf8 (esid ++ 45 :: natToDigits seq) = true := by
  refine validUtf8_append _ _ hutf (validUtf8_ascii _ ?_)
  intro b hb
  rcases List.mem_cons.mp hb with h | h
  · omega
  · have := natToDigits_mem seq b h
    omega

/-! ### Helper lemmas: `sids_to_emit` as a set union -/

theorem mem_insertSet (acc : List String) (x y : String) :
    y ∈ insertSet acc x ↔ y ∈ acc ∨ y = x := by
  unfold insertSet
  split
  · constructor
    · exact fun h => Or.inl h
    · rintro (h | rfl)
      · exact h
      · assumption
  · simp

theorem nodup_insertSet (acc : List String) (x : String) (h : acc.Nodup) :
    (insertSet acc x).Nodup := by
  unfold insertSet
  split
  · exact h
  · simp_all [List.nodup_append]

theorem mem_foldl_insertSet : ∀ (l acc : List String) (y : String),
    y ∈ l.foldl insertSet acc ↔ y ∈ acc ∨ y ∈ l
  | [], acc, y => by simp
  | x :: rest, acc, y => by
    rw [List.foldl_cons, mem_foldl_insertSet rest (insertSet acc x) y, mem_insertSet]
    simp only [List.mem_cons]
    tauto

theorem nodup_foldl_insertSet : ∀ (l acc : List String), acc.Nodup →
    (l.foldl insertSet acc).Nodup
  | [], _, h => h
  | x :: rest, acc, h => by
    rw [List.foldl_cons]
    exact nodup_foldl_insertSet rest (insertSet acc x) (nodup_insertSet acc x h)

theorem mem_sidsToEmitAux (rc : List (String × List String)) :
    ∀ (names acc : List String) (y : String),
    y ∈ sidsToEmitAux rc names acc ↔ y ∈ acc ∨ contributes rc names y = true
  | [], acc, y => by simp [sidsToEmitAux, contributes]
  | name :: rest, acc, y => by
    match h : alookup rc name with
    | some roomSids =>
      rw [sidsToEmitAux, h,
        mem_sidsToEmitAux rc rest (roomSids.foldl insertSet acc) y, mem_foldl_insertSet]
      simp only [contributes, List.any_cons, Bool.or_eq_true, h]
      have hc : (roomSids.contains y = true) ↔ y ∈ roomSids := by simp
      rw [hc]
      tauto
    | none =>
      rw [sidsToEmitAux, h,
        mem_sidsToEmitAux rc rest (insertSet acc name) y, mem_insertSet]
      simp only [contributes, List.any_cons, Bool.or_eq_true, h, beq_iff_eq]
      constructor
      · rintro ((h1 | h1) | h1)
        · exact Or.inl h1
        · exact Or.inr (Or.inl h1.symm)
        · exact Or.inr (Or.inr h1)
      · rintro (h1 | h1 | h1)
        · exact Or.inl (Or.inl h1)
        · exact Or.inl (Or.inr h1.symm)
        · exact Or.inr h1

theorem nodup_sidsToEmitAux (rc : List (String × List String)) :
    ∀ (names acc : List String), acc.Nodup → (sidsToEmitAux rc names acc).Nodup
  | [], _, h => h
  | name :: rest, acc, h => by
    match hl : alookup rc name with
    | some roomSids =>
      rw [sidsToEmitAux, hl]
      exact nodup_sidsToEmitAux rc rest _ (nodup_foldl_insertSet _ _ h)
    | none =>
      rw [sidsToEmitAux, hl]
      exact nodup_sidsToEmitAux rc rest _ (nodup_insertSet _ _ h)

/-- When every listed name is a known room, the fallback branch of
`contributes` is never taken and it agrees with `sidInUnion`. -/
theorem contributes_eq_sidInUnion (rc : List (String × List String)) :
    ∀ names : List String, (∀ name ∈ names, (alookup rc name).isSome = true) →
    ∀ y, contributes rc names y = sidInUnion rc names y
  | [], _, y => rfl
  | n :: rest, h, y => by
    have hn := h n (by simp)
    have ih := contributes_eq_sidInUnion rc rest (fun m hm => h m (by simp [hm])) y
    rw [contributes, sidInUnion] at ih
    rw [contributes, sidInUnion, List.any_cons, List.any_cons]
    cases hl : alookup rc n with
    | some roomSids => simp only [hl]; rw [ih]
    | none => rw [hl] at hn; simp at hn

/-! ### Claim theorems -/

/-- C1 (amended): for every engine sid whose byte string is valid UTF-8 and
contains no `'-'` (0x2D) byte, and every counter value `seq`,
`SidGenerator::decode` after `SidGenerator::generate` returns the original
engine sid.  (For engine sids containing `'-'` decode returns only the
prefix before the first `'-'`; see the counterexample.) -/
theorem C1_sid_roundtrip (esid : List Nat) (seq : Nat)
    (h256 : ∀ b ∈ esid, b < 256) (hutf : validUtf8 esid = true)
    (hdash : 45 ∉ esid) :
    decodeSid (generate esid seq) = some esid := by
  have h1 := b64decode_generate esid seq h256
  have h2 := validUtf8_generateBytes esid seq hutf
  have h3 := takeWhile_append_dash esid (natToDigits seq) hdash
  simp only [decodeSid, h1, h2, if_true, h3]

theorem C1_sid_roundtrip_witness :
    decodeSid (generate [97] 0) = some [97] :=
  C1_sid_roundtrip [97] 0 (by decide) (by decide) (by decide)

/-- C1 counterexample: for the engine sid "a-b" (bytes [97, 45, 98]) and
seq 0, decode of the generated sid returns only "a", not the original
engine sid — the claim fails for engine sids that contain `'-'`. -/
theorem C1_sid_roundtrip_counterexample :
    decodeSid (generate [97, 45, 98] 0) = some [97] ∧
    some [97] ≠ some ([97, 45, 98] : List Nat) := by decide

/-- C10: `SidGenerator::decode` never panics on a sid produced by
`SidGenerator::generate` (the base64 unwrap, the UTF-8 unwrap and the
`tokens[0]` indexing all succeed, so `decodeSid` is `some`), while on the
arbitrary non-base64 input "!" (byte [33]) the base64 unwrap panics
(`decodeSid` is `none`). -/
theorem C10_decode_no_panic :
    (∀ (esid : List Nat) (seq : Nat), (∀ b ∈ esid, b < 256) →
      validUtf8 esid = true → (decodeSid (generate esid seq)).isSome = true) ∧
    decodeSid [33] = none := by
  constructor
  · intro esid seq h256 hutf
    simp only [decodeSid, b64decode_generate esid seq h256,
      validUtf8_generateBytes esid seq hutf, if_true, Option.isSome_some]
  · rfl

theorem C10_decode_no_panic_witness :
    (decodeSid (generate [97] 0)).isSome = true ∧ decodeSid [33] = none :=
  ⟨C10_decode_no_panic.1 [97] 0 (by decide) (by decide), C10_decode_no_panic.2⟩

/-- C2 (code bug, evaluated at the failing input): engine sid "a"
(bytes [97]) has the registered derived sid `generate [97] 0`
(base64("a-0") = "YS0w") in `clients` and in room "r".  After
`drop_client`, the room set is correctly emptied, but the derived sid is
still a key of `clients`: `clients.remove(esid)` removes only a key equal
to the raw engine sid, which no derived (strictly longer, base64) sid ever
is — contradicting the claim that all sids derived from the engine sid are
removed from `clients`. -/
theorem C2_dropClient_leaves_derived_sid :
    (dropClient ⟨[(generate [97] 0, ["/"])], [("/", [("r", [generate [97] 0])])]⟩
        [97]).clients = [(generate [97] 0, ["/"])] ∧
    (dropClient ⟨[(generate [97] 0, ["/"])], [("/", [("r", [generate [97] 0])])]⟩
        [97]).rooms = [("/", [("r", [])])] := by decide

/-- C3 (amended): when the first CONNECT packet names a namespace with no
registered event-table, the server silently ignores it: no CONNECT_ERROR
reply is sent, the connection is not closed, and no client is registered
(`insert_clients` falls through its `if let` with no else branch). -/
theorem C3_unknown_nsp_silent (onTables : List String)
    (clients : List (List Nat × List String))
    (packets : List (PacketTypeM × String)) (sid : List Nat)
    (p : PacketTypeM × String)
    (hfind : packets.find? (fun q => q.1 == PacketTypeM.connect) = some p)
    (hnsp : onTables.contains p.2 = false) :
    handleConnect onTables clients packets sid = (clients, []) := by
  rw [handleConnect, hfind]
  have hn : p.2 ∉ onTables := by simpa using hnsp
  simp [insertClients, hn]

theorem C3_unknown_nsp_silent_witness :
    handleConnect ["/admin"] [] [(PacketTypeM.connect, "/x")] [97] = ([], []) :=
  C3_unknown_nsp_silent ["/admin"] [] [(PacketTypeM.connect, "/x")] [97]
    (PacketTypeM.connect, "/x") (by decide) (by decide)

/-- C3 counterexample: a server with only "/admin" registered receives a
CONNECT for "/x": the action list is empty — no CONNECT_ERROR and no
close, contrary to the claim (no client is registered, which does hold). -/
theorem C3_unknown_nsp_counterexample :
    (handleConnect ["/admin"] [] [(PacketTypeM.connect, "/x")] [97]).2 = [] ∧
    SAction.connectError "/x" ∉
      (handleConnect ["/admin"] [] [(PacketTypeM.connect, "/x")] [97]).2 ∧
    SAction.close ∉
      (handleConnect ["/admin"] [] [(PacketTypeM.connect, "/x")] [97]).2 := by decide

/-- C4 (amended): with `max_reconnect_attempts = Some n`, when every
reconnect attempt fails the retry loop terminates after exactly `n + 1`
failed attempts and simply returns — `Client::reconnect` returns `()` and
no `ReconnectFailed` (or any other) error value is surfaced; in
particular `max_reconnect_attempts = 0` performs one reconnect attempt
before giving up (rather than failing without any retry). -/
theorem C4_reconnect_gives_up (maxAttempts : Nat) (succeeds : Nat → Bool)
    (hfail : ∀ k, succeeds k = false) :
    reconnect maxAttempts succeeds = ReconnectOutcome.gaveUp (maxAttempts + 1) := by
  have go : ∀ (r a : Nat), reconnectGo succeeds r a = ReconnectOutcome.gaveUp (a + r) := by
    intro r
    induction r with
    | zero => intro a; simp [reconnectGo]
    | succ n ih =>
      intro a
      rw [reconnectGo, hfail (a + 1)]
      simp only [Bool.false_eq_true, if_false]
      rw [ih (a + 1)]
      congr 1
      omega
  rw [reconnect, go (maxAttempts + 1) 0]
  congr 1
  omega

theorem C4_reconnect_gives_up_witness :
    reconnect 0 (fun _ => false) = ReconnectOutcome.gaveUp 1 :=
  C4_reconnect_gives_up 0 (fun _ => false) (fun _ => rfl)

/-- C4 counterexample: with `max_reconnect_attempts = Some 0` the loop
still performs one reconnect attempt (the guard `attempts > max` is
checked before incrementing), and if that attempt succeeds the client is
reconnected — not the terminal failure without a successful retry the
claim asserts. -/
theorem C4_reconnect_counterexample :
    reconnect 0 (fun _ => true) = ReconnectOutcome.reconnected 1 ∧
    ReconnectOutcome.reconnected 1 ≠ ReconnectOutcome.gaveUp 1 := by decide

/-- C5 (amended): `ClientPolling::new` appends `transport=polling` only
when no existing query pair has key "transport" or value "polling"; for
such URLs the resulting query contains `transport=polling`, and the
concrete canonicalization `ClientPolling::new("http://127.0.0.1/")`
yields exactly "http://127.0.0.1/?transport=polling".  (URLs already
containing such a pair are left unchanged, so the invariant can fail;
see the counterexample.) -/
theorem C5_polling_url (pairs : List (String × String))
    (h : pairs.any (fun p => p.1 == "transport" || p.2 == "polling") = false) :
    hasTransportPolling (addPollingTransport pairs) = true ∧
    renderUrl "http://127.0.0.1/" (addPollingTransport []) =
      "http://127.0.0.1/?transport=polling" := by
  constructor
  · rw [addPollingTransport, h]
    simp [hasTransportPolling, List.any_append]
  · decide

theorem C5_polling_url_witness :
    hasTransportPolling (addPollingTransport []) = true ∧
    renderUrl "http://127.0.0.1/" (addPollingTransport []) =
      "http://127.0.0.1/?transport=polling" :=
  C5_polling_url [] (by decide)

/-- C5 counterexample: the URL query `?foo=polling` has a pair whose value
is "polling", so `ClientPolling::new` (whose guard uses `||` on key =
"transport" or value = "polling") leaves the query unchanged and the
resulting URL does not contain `transport=polling`. -/
theorem C5_polling_url_counterexample :
    addPollingTransport [("foo", "polling")] = [("foo", "polling")] ∧
    hasTransportPolling (addPollingTransport [("foo", "polling")]) = false := by decide

/-- C6 (amended): a listed name that is not a known room is treated as a
sid only when the namespace has an entry in the `rooms` index: in that
case the name receives the emit iff a client with that sid exists in the
namespace; when the namespace has no `rooms` entry, `emit_to` has no
recipients at all (even for names matching existing sids). -/
theorem C6_sid_fallback (clients : List (String × List String))
    (rooms : List (String × List (String × List String)))
    (nsp name : String) (names : List String) (rc : List (String × List String)) :
    (alookup rooms nsp = none → emitRecipients clients rooms nsp names = []) ∧
    (alookup rooms nsp = some rc → alookup rc name = none → name ∈ names →
      (name ∈ emitRecipients clients rooms nsp names ↔
        clientExists clients name nsp = true)) := by
  constructor
  · intro h
    simp only [emitRecipients, sidsToEmit, h]
    rfl
  · intro hrc hname hmem
    simp only [emitRecipients, sidsToEmit, hrc]
    rw [List.mem_filter]
    constructor
    · rintro ⟨_, h2⟩
      exact h2
    · intro hce
      refine ⟨?_, hce⟩
      rw [mem_sidsToEmitAux]
      right
      rw [contributes, List.any_eq_true]
      refine ⟨name, hmem, ?_⟩
      simp [hname]

theorem C6_sid_fallback_witness :
    "s1" ∈ emitRecipients [("s1", ["/"])] [("/", [("r", ["x"])])] "/" ["s1"] :=
  ((C6_sid_fallback [("s1", ["/"])] [("/", [("r", ["x"])])] "/" "s1" ["s1"]
    [("r", ["x"])]).2 (by decide) (by decide) (by decide)).mpr (by decide)

/-- C6 counterexample: the namespace "/" has no entry in the rooms index;
client "s1" exists in "/", yet `emit_to("/", ["s1"], ..)` has no
recipients — the sid fallback does not happen, contradicting the
"regardless of whether nsp has any entry in the rooms index" part. -/
theorem C6_sid_fallback_counterexample :
    clientExists [("s1", ["/"])] "s1" "/" = true ∧
    emitRecipients [("s1", ["/"])] [] "/" ["s1"] = [] := by decide

/-- C7: when every listed name is a known room of the namespace and every
sid in those rooms has a client in the namespace, the recipients of
`emit_to` are exactly the union of the sid sets of the listed rooms with
duplicates removed: every sid in the union is scheduled exactly one emit
(count 1, even if it lies in several listed rooms) and no other sid is
scheduled any. -/
theorem C7_union_dedup (clients : List (String × List String))
    (rooms : List (String × List (String × List String)))
    (nsp : String) (names : List String) (rc : List (String × List String))
    (hrc : alookup rooms nsp = some rc)
    (hrooms : ∀ name ∈ names, (alookup rc name).isSome = true)
    (hcl : ∀ sid : String, sidInUnion rc names sid = true →
      clientExists clients sid nsp = true) :
    ∀ sid : String, (emitRecipients clients rooms nsp names).count sid =
      (if sidInUnion rc names sid = true then 1 else 0) := by
  intro sid
  have hmem : sid ∈ sidsToEmitAux rc names [] ↔ sidInUnion rc names sid = true := by
    rw [mem_sidsToEmitAux, contributes_eq_sidInUnion rc names hrooms]
    simp
  have hrec : emitRecipients clients rooms nsp names =
      (sidsToEmitAux rc names []).filter (fun s => clientExists clients s nsp) := by
    simp only [emitRecipients, sidsToEmit, hrc]
  rw [hrec]
  by_cases hu : sidInUnion rc names sid = true
  · rw [if_pos hu]
    refine List.count_eq_one_of_mem ?_ ?_
    · exact (nodup_sidsToEmitAux rc names [] (by simp)).filter _
    · rw [List.mem_filter]
      exact ⟨hmem.mpr hu, hcl sid hu⟩
  · rw [if_neg hu]
    rw [List.count_eq_zero]
    intro hmem2
    exact hu (hmem.mp (List.mem_filter.mp hmem2).1)

theorem C7_union_dedup_witness :
    (emitRecipients [("s2", ["/"])]
      [("/", [("r1", ["s2"]), ("r2", ["s2"])])] "/" ["r1", "r2"]).count "s2" = 1 := by
  have h := C7_union_dedup [("s2", ["/"])]
      [("/", [("r1", ["s2"]), ("r2", ["s2"])])] "/" ["r1", "r2"]
      [("r1", ["s2"]), ("r2", ["s2"])] (by decide) (by decide)
      (by
        intro sid hs
        simp [sidInUnion, alookup] at hs
        subst hs
        decide) "s2"
  rw [h]
  decide

/-- C8: `ClientPolling::emit` posts the encoded body; when the POST
yields a response with status `s`, the call returns `Ok(())` iff
`s = 200`, and for any other status it returns
`Err(InvalidHttpResponseStatus(s))`. -/
theorem C8_polling_emit_status (payload : TPayload)
    (respond : List Nat → Option Nat) (status : Nat)
    (h : respond (emitBody payload) = some status) :
    (pollingEmit payload respond = .ok () ↔ status = 200) ∧
    (status ≠ 200 →
      pollingEmit payload respond = .error (.invalidHttpResponseStatus status)) := by
  simp only [pollingEmit, h]
  by_cases hs : status = 200
  · subst hs; simp
  · simp [hs]

theorem C8_polling_emit_status_witness :
    pollingEmit (TPayload.str []) (fun _ => some 404) =
      Except.error (TransportError.invalidHttpResponseStatus 404) :=
  (C8_polling_emit_status (TPayload.str []) (fun _ => some 404) 404 rfl).2 (by decide)

/-- C9: `Client::disconnect` is idempotent at the public interface: on an
already disconnected client it returns `Ok(())` with no socket action; a
first call on a connected client clears the flag and performs exactly the
teardown, and any further call is a no-op returning `Ok(())`. -/
theorem C9_disconnect_idempotent (st : ClientConn) (r1 r2 : Bool) :
    (st.connected = false → clientDisconnect r1 st = (st, [], true)) ∧
    ((clientDisconnect r1 st).1.connected = false) ∧
    (clientDisconnect r2 (clientDisconnect r1 st).1 =
      ((clientDisconnect r1 st).1, [], true)) ∧
    (st.connected = true →
      clientDisconnect r1 st = (⟨false⟩, [CAction.sendDisconnectAndClose], r1)) := by
  obtain ⟨c⟩ := st
  cases c <;> simp [clientDisconnect]

theorem C9_disconnect_idempotent_witness :
    clientDisconnect true ⟨false⟩ = (⟨false⟩, [], true) :=
  (C9_disconnect_idempotent ⟨false⟩ true true).1 rfl

end SocketIOProof
